import Mathlib

/-!
Verification of the process counter state machine of src/main.py
(class ProcessData, lines 76-351).

Numbers are modelled as rationals (the Python code works with floats but
every claim under scrutiny is purely order/sum-theoretic).  The operation
stack is a Lean list whose head is the top of the Python list-as-stack.
File I/O (save_data / load_data) is modelled by pure functions over an
explicit record type mirroring the JSON dictionary.
-/

/-- One ledger entry, mirroring the Python dict
`{"batch_id": str, "value": float}` (src/main.py line 101). -/
structure Batch where
  batch_id : String
  value : ℚ
deriving DecidableEq, Repr

/-- True when a value has a fractional part, mirroring the Python test
`value != int(value)`. -/
def isFractional (q : ℚ) : Bool := q.den ≠ 1

/-- An entry of `operation_stack`: the dynamic dicts tagged by the
`"type"` key in the source (add_batch / reset / set_target /
set_lower_limit / set_upper_limit) become a closed tagged variant. -/
inductive OpRecord where
  | add_batch (batch : Batch) (previous_total : ℚ)
  | reset (previous_batches : List Batch)
  | set_target (previous_target new_target : ℚ)
  | set_lower_limit (previous_lower_limit new_lower_limit : ℚ)
  | set_upper_limit (previous_upper_limit new_upper_limit : ℚ)
deriving DecidableEq, Repr

/-- The mutable state of a ProcessData instance (src/main.py lines
100-111).  The head of `operation_stack` is the most recently pushed
record. -/
structure ProcessData where
  batches : List Batch
  operation_stack : List OpRecord
  over_target_upper : Bool
  below_target_lower : Bool
  TARGET : ℚ
  LOWER_LIMIT : ℚ
  UPPER_LIMIT : ℚ
  has_decimal : Bool
  liquid_change_reminded : Bool
  input_mode : String
deriving DecidableEq, Repr

/-- `total` property (lines 117-120): the accumulated total is the sum of
the values of all batches, recomputed on every read, never cached. -/
def ProcessData.total (s : ProcessData) : ℚ :=
  (s.batches.map Batch.value).sum

/-- `check_target_limits` (lines 310-314): recomputes the two derived
status booleans from the current total and thresholds. -/
def ProcessData.check_target_limits (s : ProcessData) : ProcessData :=
  { s with
    over_target_upper := decide (s.total > s.UPPER_LIMIT),
    below_target_lower := decide (s.LOWER_LIMIT ≤ s.total ∧ s.total < s.TARGET) }

/-- `check_decimal_status` (lines 245-247), identical in effect to
`_update_total_from_batches` (lines 249-251): recompute `has_decimal`
from the batch list. -/
def ProcessData.check_decimal_status (s : ProcessData) : ProcessData :=
  { s with has_decimal := s.batches.any (fun b => isFractional b.value) }

/-- `add_batch` (lines 185-204): mark decimals, push an add record
holding the batch and the pre-addition total, append the batch,
recompute derived status, return the new total. -/
def ProcessData.add_batch (s : ProcessData) (batch_id : String) (value : ℚ) :
    ProcessData × ℚ :=
  let s1 : ProcessData :=
    { s with
      has_decimal := s.has_decimal || isFractional value,
      operation_stack :=
        OpRecord.add_batch ⟨batch_id, value⟩ s.total :: s.operation_stack,
      batches := s.batches ++ [⟨batch_id, value⟩] }
  let s2 := s1.check_target_limits
  (s2, s2.total)

/-- `undo_last_action` (lines 206-243): empty stack returns the Python
None (here `none`); otherwise pop the top record and dispatch.  The
Python `self.batches.pop()` in the add_batch branch is the pair
`getLast?` / `dropLast`. -/
def ProcessData.undo_last_action (s : ProcessData) : ProcessData × Option ℚ :=
  match s.operation_stack with
  | [] => (s, none)
  | op :: rest =>
    match op with
    | OpRecord.add_batch _ _ =>
      let removed := s.batches.getLast?
      let s1 : ProcessData :=
        { s with operation_stack := rest, batches := s.batches.dropLast }
      let s2 := s1.check_decimal_status.check_target_limits
      (s2, removed.map Batch.value)
    | OpRecord.reset previous_batches =>
      let s1 : ProcessData :=
        { s with operation_stack := rest, batches := previous_batches }
      let s2 := s1.check_decimal_status.check_target_limits
      ({ s2 with liquid_change_reminded := false }, some 0)
    | OpRecord.set_target previous_target new_target =>
      let s1 : ProcessData := { s with operation_stack := rest, TARGET := previous_target }
      (s1.check_target_limits, some new_target)
    | OpRecord.set_lower_limit previous_lower_limit new_lower_limit =>
      let s1 : ProcessData :=
        { s with operation_stack := rest, LOWER_LIMIT := previous_lower_limit }
      (s1.check_target_limits, some new_lower_limit)
    | OpRecord.set_upper_limit previous_upper_limit new_upper_limit =>
      let s1 : ProcessData :=
        { s with operation_stack := rest, UPPER_LIMIT := previous_upper_limit }
      (s1.check_target_limits, some new_upper_limit)

/-- `reset_total` (lines 253-269): with total zero it is a pure no-op
returning the Python False sentinel (here `none`); otherwise it pushes a
reset record holding a copy of the batch list, clears the batches, the
decimal flag and the reminder flag, recomputes status and returns the
prior total. -/
def ProcessData.reset_total (s : ProcessData) : ProcessData × Option ℚ :=
  if s.total = 0 then (s, none)
  else
    let s1 : ProcessData :=
      { s with
        operation_stack := OpRecord.reset s.batches :: s.operation_stack,
        batches := [],
        has_decimal := false,
        liquid_change_reminded := false }
    (s1.check_target_limits, some s.total)

/-- `set_target` (lines 271-282): push a set_target record carrying the
previous and the new value, replace the field, recompute status, return
the previous value. -/
def ProcessData.set_target (s : ProcessData) (new_target : ℚ) : ProcessData × ℚ :=
  let s1 : ProcessData :=
    { s with
      operation_stack := OpRecord.set_target s.TARGET new_target :: s.operation_stack,
      TARGET := new_target }
  (s1.check_target_limits, s.TARGET)

/-- `set_lower_limit` (lines 284-295). -/
def ProcessData.set_lower_limit (s : ProcessData) (new_lower_limit : ℚ) :
    ProcessData × ℚ :=
  let s1 : ProcessData :=
    { s with
      operation_stack :=
        OpRecord.set_lower_limit s.LOWER_LIMIT new_lower_limit :: s.operation_stack,
      LOWER_LIMIT := new_lower_limit }
  (s1.check_target_limits, s.LOWER_LIMIT)

/-- `set_upper_limit` (lines 297-308). -/
def ProcessData.set_upper_limit (s : ProcessData) (new_upper_limit : ℚ) :
    ProcessData × ℚ :=
  let s1 : ProcessData :=
    { s with
      operation_stack :=
        OpRecord.set_upper_limit s.UPPER_LIMIT new_upper_limit :: s.operation_stack,
      UPPER_LIMIT := new_upper_limit }
  (s1.check_target_limits, s.UPPER_LIMIT)

/-- Outcome of `check_liquid_change_reminder`: which (kind, message)
tuple the Python code returns.  `forced` is the over-upper tuple,
`reached` / `pending` the two Notice tuples whose messages interpolate
the formatted total and target, and `none` stands for (None, None). -/
inductive ReminderResult where
  | forced
  | reached (tot target : ℚ)
  | pending (tot target : ℚ)
deriving DecidableEq, Repr

/-- `check_liquid_change_reminder` (lines 316-335): forced tuple when the
over-upper status flag is set; in the reminder band set the flag on
first notice (the Python code also persists here, an I/O effect outside
the state) and report pending afterwards; below the lower limit silently
clear the flag; otherwise no reminder. -/
def ProcessData.check_liquid_change_reminder (s : ProcessData) :
    ProcessData × Option ReminderResult :=
  if s.over_target_upper then
    (s, some ReminderResult.forced)
  else if s.LOWER_LIMIT ≤ s.total ∧ s.total < s.TARGET then
    if ¬ s.liquid_change_reminded then
      ({ s with liquid_change_reminded := true },
       some (ReminderResult.reached s.total s.TARGET))
    else
      (s, some (ReminderResult.pending s.total s.TARGET))
  else if s.total < s.LOWER_LIMIT then
    ({ s with liquid_change_reminded := false }, none)
  else
    (s, none)

/-- `can_undo` (lines 350-351). -/
def ProcessData.can_undo (s : ProcessData) : Bool :=
  s.operation_stack.length > 0

/-- The default thresholds (lines 96-98). -/
def DEFAULT_TARGET : ℚ := 3000
def DEFAULT_LOWER_LIMIT : ℚ := 0
def DEFAULT_UPPER_LIMIT : ℚ := 5000

/-- The persisted JSON record read by `load_data` and written by
`save_data` (lines 131-183).  Every key may be absent from an on-disk
file, hence the Option fields; `legacy_total` stands for the `"total"`
key of pre-batches records, which the current loader never reads. -/
structure SavedData where
  saved_batches : Option (List Batch)
  legacy_total : Option ℚ
  target : Option ℚ
  lower_limit : Option ℚ
  upper_limit : Option ℚ
  saved_input_mode : Option String
  saved_reminded : Option Bool
deriving DecidableEq, Repr

/-- `__init__` + `load_data` (lines 79-165) on a cleanly parsed file:
`none` is the missing-file branch (all defaults), `some d` the present
branch, where a record without a `"batches"` key loads as an empty
ledger and the legacy total is ignored.  The constructor then recomputes
`has_decimal` and the derived status over an empty operation stack. -/
def initEngine (mode : String) (d : Option SavedData) : ProcessData :=
  let base : ProcessData :=
    match d with
    | none =>
      { batches := [], operation_stack := [],
        over_target_upper := false, below_target_lower := false,
        TARGET := DEFAULT_TARGET, LOWER_LIMIT := DEFAULT_LOWER_LIMIT,
        UPPER_LIMIT := DEFAULT_UPPER_LIMIT,
        has_decimal := false, liquid_change_reminded := false,
        input_mode := mode }
    | some dat =>
      { batches := dat.saved_batches.getD [], operation_stack := [],
        over_target_upper := false, below_target_lower := false,
        TARGET := dat.target.getD DEFAULT_TARGET,
        LOWER_LIMIT := dat.lower_limit.getD DEFAULT_LOWER_LIMIT,
        UPPER_LIMIT := dat.upper_limit.getD DEFAULT_UPPER_LIMIT,
        has_decimal := false,
        liquid_change_reminded := dat.saved_reminded.getD false,
        input_mode := dat.saved_input_mode.getD "integer" }
  base.check_decimal_status.check_target_limits

/-- `save_data` (lines 167-183): the record written back to disk. -/
def ProcessData.save_data (s : ProcessData) : SavedData :=
  { saved_batches := some s.batches,
    legacy_total := none,
    target := some s.TARGET,
    lower_limit := some s.LOWER_LIMIT,
    upper_limit := some s.UPPER_LIMIT,
    saved_input_mode := some s.input_mode,
    saved_reminded := some s.liquid_change_reminded }

/-! ### Helper lemmas about the operations -/

theorem check_target_limits_batches (s : ProcessData) :
    s.check_target_limits.batches = s.batches := rfl

theorem check_target_limits_total (s : ProcessData) :
    s.check_target_limits.total = s.total := rfl

theorem check_target_limits_stack (s : ProcessData) :
    s.check_target_limits.operation_stack = s.operation_stack := rfl

theorem check_target_limits_over (s : ProcessData) :
    s.check_target_limits.over_target_upper = decide (s.total > s.UPPER_LIMIT) := rfl

theorem check_target_limits_below (s : ProcessData) :
    s.check_target_limits.below_target_lower =
      decide (s.LOWER_LIMIT ≤ s.total ∧ s.total < s.TARGET) := rfl

/-- The two derived-status booleans agree with their defining predicates. -/
def StatusConsistent (s : ProcessData) : Prop :=
  s.over_target_upper = decide (s.total > s.UPPER_LIMIT)
  ∧ s.below_target_lower = decide (s.LOWER_LIMIT ≤ s.total ∧ s.total < s.TARGET)

theorem statusConsistent_check_target_limits (s : ProcessData) :
    StatusConsistent s.check_target_limits := ⟨rfl, rfl⟩

theorem add_batch_batches (s : ProcessData) (i : String) (v : ℚ) :
    (s.add_batch i v).1.batches = s.batches ++ [⟨i, v⟩] := rfl

theorem add_batch_stack (s : ProcessData) (i : String) (v : ℚ) :
    (s.add_batch i v).1.operation_stack =
      OpRecord.add_batch ⟨i, v⟩ s.total :: s.operation_stack := rfl

theorem add_batch_TARGET (s : ProcessData) (i : String) (v : ℚ) :
    (s.add_batch i v).1.TARGET = s.TARGET := rfl

theorem add_batch_LOWER (s : ProcessData) (i : String) (v : ℚ) :
    (s.add_batch i v).1.LOWER_LIMIT = s.LOWER_LIMIT := rfl

theorem add_batch_UPPER (s : ProcessData) (i : String) (v : ℚ) :
    (s.add_batch i v).1.UPPER_LIMIT = s.UPPER_LIMIT := rfl

theorem add_batch_reminded (s : ProcessData) (i : String) (v : ℚ) :
    (s.add_batch i v).1.liquid_change_reminded = s.liquid_change_reminded := rfl

theorem add_batch_total (s : ProcessData) (i : String) (v : ℚ) :
    (s.add_batch i v).1.total = s.total + v := by
  show ((s.batches ++ [(⟨i, v⟩ : Batch)]).map Batch.value).sum = s.total + v
  simp [ProcessData.total]

theorem add_batch_snd (s : ProcessData) (i : String) (v : ℚ) :
    (s.add_batch i v).2 = s.total + v := add_batch_total s i v

theorem undo_on_nil (s : ProcessData) (h : s.operation_stack = []) :
    s.undo_last_action = (s, none) := by
  cases s
  dsimp only at h
  subst h
  rfl

theorem undo_on_add (s : ProcessData) (b : Batch) (pt : ℚ) (rest : List OpRecord)
    (h : s.operation_stack = OpRecord.add_batch b pt :: rest) :
    s.undo_last_action =
      (ProcessData.check_target_limits (ProcessData.check_decimal_status
        { s with operation_stack := rest, batches := s.batches.dropLast }),
       s.batches.getLast?.map Batch.value) := by
  cases s
  dsimp only at h
  subst h
  rfl

theorem undo_on_reset (s : ProcessData) (prev : List Batch) (rest : List OpRecord)
    (h : s.operation_stack = OpRecord.reset prev :: rest) :
    s.undo_last_action =
      ({ ProcessData.check_target_limits (ProcessData.check_decimal_status
          { s with operation_stack := rest, batches := prev }) with
          liquid_change_reminded := false },
       some 0) := by
  cases s
  dsimp only at h
  subst h
  rfl

theorem undo_on_set_target (s : ProcessData) (p v : ℚ) (rest : List OpRecord)
    (h : s.operation_stack = OpRecord.set_target p v :: rest) :
    s.undo_last_action =
      (ProcessData.check_target_limits { s with operation_stack := rest, TARGET := p },
       some v) := by
  cases s
  dsimp only at h
  subst h
  rfl

theorem undo_on_set_lower (s : ProcessData) (p v : ℚ) (rest : List OpRecord)
    (h : s.operation_stack = OpRecord.set_lower_limit p v :: rest) :
    s.undo_last_action =
      (ProcessData.check_target_limits { s with operation_stack := rest, LOWER_LIMIT := p },
       some v) := by
  cases s
  dsimp only at h
  subst h
  rfl

theorem undo_on_set_upper (s : ProcessData) (p v : ℚ) (rest : List OpRecord)
    (h : s.operation_stack = OpRecord.set_upper_limit p v :: rest) :
    s.undo_last_action =
      (ProcessData.check_target_limits { s with operation_stack := rest, UPPER_LIMIT := p },
       some v) := by
  cases s
  dsimp only at h
  subst h
  rfl

/-! ### Sequences of additions and undos -/

/-- A (label, value) pair as a batch. -/
def mkBatch (p : String × ℚ) : Batch := ⟨p.1, p.2⟩

/-- Perform `add_batch` for every pair of the list, in order. -/
def addAll (s : ProcessData) (vs : List (String × ℚ)) : ProcessData :=
  match vs with
  | [] => s
  | p :: rest => addAll (s.add_batch p.1 p.2).1 rest

/-- The state after one undo. -/
def undoStep (s : ProcessData) : ProcessData := s.undo_last_action.1

/-- The state after `k` undos. -/
def undoN (k : Nat) (s : ProcessData) : ProcessData := undoStep^[k] s

/-- Recognizer for add records on the operation stack. -/
def OpRecord.isAdd : OpRecord → Bool
  | OpRecord.add_batch _ _ => true
  | _ => false

theorem addAll_batches (vs : List (String × ℚ)) : ∀ s : ProcessData,
    (addAll s vs).batches = s.batches ++ vs.map mkBatch := by
  induction vs with
  | nil => intro s; simp [addAll]
  | cons p rest ih =>
    intro s
    simp only [addAll, ih, add_batch_batches, List.map_cons, List.append_assoc,
      List.singleton_append, mkBatch]

theorem addAll_TARGET (vs : List (String × ℚ)) : ∀ s : ProcessData,
    (addAll s vs).TARGET = s.TARGET := by
  induction vs with
  | nil => intro s; rfl
  | cons p rest ih => intro s; simp only [addAll, ih, add_batch_TARGET]

theorem addAll_LOWER (vs : List (String × ℚ)) : ∀ s : ProcessData,
    (addAll s vs).LOWER_LIMIT = s.LOWER_LIMIT := by
  induction vs with
  | nil => intro s; rfl
  | cons p rest ih => intro s; simp only [addAll, ih, add_batch_LOWER]

theorem addAll_UPPER (vs : List (String × ℚ)) : ∀ s : ProcessData,
    (addAll s vs).UPPER_LIMIT = s.UPPER_LIMIT := by
  induction vs with
  | nil => intro s; rfl
  | cons p rest ih => intro s; simp only [addAll, ih, add_batch_UPPER]

theorem addAll_reminded (vs : List (String × ℚ)) : ∀ s : ProcessData,
    (addAll s vs).liquid_change_reminded = s.liquid_change_reminded := by
  induction vs with
  | nil => intro s; rfl
  | cons p rest ih => intro s; simp only [addAll, ih, add_batch_reminded]

theorem addAll_stack (vs : List (String × ℚ)) : ∀ s : ProcessData,
    ∃ l : List OpRecord,
      (addAll s vs).operation_stack = l ++ s.operation_stack
      ∧ l.length = vs.length ∧ ∀ r ∈ l, r.isAdd = true := by
  induction vs with
  | nil => intro s; exact ⟨[], rfl, rfl, by simp⟩
  | cons p rest ih =>
    intro s
    obtain ⟨l, hl, hlen, hadd⟩ := ih (s.add_batch p.1 p.2).1
    refine ⟨l ++ [OpRecord.add_batch ⟨p.1, p.2⟩ s.total], ?_, ?_, ?_⟩
    · simpa [add_batch_stack, List.append_assoc] using hl
    · simp [hlen]
    · intro r hr
      rcases List.mem_append.mp hr with h | h
      · exact hadd r h
      · simp only [List.mem_singleton] at h
        subst h
        rfl

theorem undoStep_on_add (s : ProcessData) (b : Batch) (pt : ℚ) (rest : List OpRecord)
    (h : s.operation_stack = OpRecord.add_batch b pt :: rest) :
    (undoStep s).batches = s.batches.dropLast
    ∧ (undoStep s).operation_stack = rest
    ∧ (undoStep s).TARGET = s.TARGET
    ∧ (undoStep s).LOWER_LIMIT = s.LOWER_LIMIT
    ∧ (undoStep s).UPPER_LIMIT = s.UPPER_LIMIT
    ∧ (undoStep s).liquid_change_reminded = s.liquid_change_reminded
    ∧ StatusConsistent (undoStep s) := by
  have := undo_on_add s b pt rest h
  unfold undoStep
  rw [this]
  exact ⟨rfl, rfl, rfl, rfl, rfl, rfl, rfl, rfl⟩

theorem take_dropLast {α : Type} (l : List α) (m : Nat) (hm : m ≤ l.length) :
    (l.take m).dropLast = l.take (m - 1) := by
  rw [List.dropLast_eq_take, List.length_take, List.take_take]
  congr 1
  omega

/-- Master lemma for undoing `k` of `n` just-performed additions: the
ledger is the original one extended by the first `n - k` batches, the
thresholds and the reminder flag are untouched, and the records still to
be undone are all add records sitting on top of the original stack. -/
theorem undoN_addAll_spec (s : ProcessData) (vs : List (String × ℚ)) :
    ∀ k, k ≤ vs.length →
      (undoN k (addAll s vs)).batches
          = s.batches ++ (vs.take (vs.length - k)).map mkBatch
      ∧ (undoN k (addAll s vs)).TARGET = s.TARGET
      ∧ (undoN k (addAll s vs)).LOWER_LIMIT = s.LOWER_LIMIT
      ∧ (undoN k (addAll s vs)).UPPER_LIMIT = s.UPPER_LIMIT
      ∧ (undoN k (addAll s vs)).liquid_change_reminded = s.liquid_change_reminded
      ∧ ∃ l : List OpRecord,
          (undoN k (addAll s vs)).operation_stack = l ++ s.operation_stack
          ∧ l.length = vs.length - k ∧ ∀ r ∈ l, r.isAdd = true := by
  intro k
  induction k with
  | zero =>
    intro _
    have h0 : undoN 0 (addAll s vs) = addAll s vs := Function.iterate_zero_apply _ _
    rw [h0]
    refine ⟨?_, addAll_TARGET vs s, addAll_LOWER vs s, addAll_UPPER vs s,
      addAll_reminded vs s, ?_⟩
    · rw [addAll_batches, Nat.sub_zero, List.take_length]
    · obtain ⟨l, hl, hlen, hadd⟩ := addAll_stack vs s
      exact ⟨l, hl, by omega, hadd⟩
  | succ k ih =>
    intro hk1
    have hk : k ≤ vs.length := Nat.le_of_succ_le hk1
    obtain ⟨hb, hT, hL, hU, hR, l, hl, hlen, hadd⟩ := ih hk
    have hpos : 1 ≤ vs.length - k := by omega
    obtain ⟨r, l', rfl⟩ : ∃ r l', l = r :: l' := by
      cases l with
      | nil => simp at hlen; omega
      | cons r l' => exact ⟨r, l', rfl⟩
    have hradd : r.isAdd = true := hadd r (by simp)
    obtain ⟨b, pt, rfl⟩ : ∃ b pt, r = OpRecord.add_batch b pt := by
      cases r with
      | add_batch b pt => exact ⟨b, pt, rfl⟩
      | reset p => simp [OpRecord.isAdd] at hradd
      | set_target p v => simp [OpRecord.isAdd] at hradd
      | set_lower_limit p v => simp [OpRecord.isAdd] at hradd
      | set_upper_limit p v => simp [OpRecord.isAdd] at hradd
    have hstep : undoN (k + 1) (addAll s vs) = undoStep (undoN k (addAll s vs)) :=
      Function.iterate_succ_apply' _ _ _
    obtain ⟨ub, ust, uT, uL, uU, uR, _⟩ :=
      undoStep_on_add (undoN k (addAll s vs)) b pt (l' ++ s.operation_stack)
        (by rw [hl]; rfl)
    rw [hstep]
    have htake_ne : (vs.take (vs.length - k)).map mkBatch ≠ [] := by
      have : (vs.take (vs.length - k)).length = vs.length - k := by
        rw [List.length_take]; omega
      intro hcon
      rw [List.map_eq_nil_iff] at hcon
      rw [hcon] at this
      simp at this
      omega
    refine ⟨?_, by rw [uT, hT], by rw [uL, hL], by rw [uU, hU], by rw [uR, hR],
      l', by rw [ust], by simp at hlen; omega, fun r hr => hadd r (by simp [hr])⟩
    have harith : vs.length - k - 1 = vs.length - (k + 1) := by omega
    rw [ub, hb, List.dropLast_append_of_ne_nil _ htake_ne, ← List.map_dropLast,
      take_dropLast vs _ (by omega), harith]

/-! ### Reachable engine states -/

/-- One core mutation of the engine, as invoked by the UI collaborator. -/
inductive Step : ProcessData → ProcessData → Prop where
  | add (s : ProcessData) (i : String) (v : ℚ) : Step s (s.add_batch i v).1
  | reset (s : ProcessData) : Step s s.reset_total.1
  | setT (s : ProcessData) (v : ℚ) : Step s (s.set_target v).1
  | setL (s : ProcessData) (v : ℚ) : Step s (s.set_lower_limit v).1
  | setU (s : ProcessData) (v : ℚ) : Step s (s.set_upper_limit v).1
  | undo (s : ProcessData) : Step s s.undo_last_action.1
  | remind (s : ProcessData) : Step s s.check_liquid_change_reminder.1

/-- States reachable from a freshly constructed engine (any persisted
record, or none) through the core operations. -/
inductive Reachable : ProcessData → Prop where
  | init (mode : String) (d : Option SavedData) : Reachable (initEngine mode d)
  | step {s t : ProcessData} : Reachable s → Step s t → Reachable t

theorem initEngine_stack (mode : String) (d : Option SavedData) :
    (initEngine mode d).operation_stack = [] := by
  cases d <;> rfl

theorem statusConsistent_of_fields {s t : ProcessData}
    (hb : t.batches = s.batches) (ho : t.over_target_upper = s.over_target_upper)
    (hbl : t.below_target_lower = s.below_target_lower) (hT : t.TARGET = s.TARGET)
    (hL : t.LOWER_LIMIT = s.LOWER_LIMIT) (hU : t.UPPER_LIMIT = s.UPPER_LIMIT)
    (h : StatusConsistent s) : StatusConsistent t := by
  unfold StatusConsistent ProcessData.total at h ⊢
  rw [hb, ho, hbl, hT, hL, hU]
  exact h

theorem reminder_fst_fields (s : ProcessData) :
    s.check_liquid_change_reminder.1.batches = s.batches
    ∧ s.check_liquid_change_reminder.1.operation_stack = s.operation_stack
    ∧ s.check_liquid_change_reminder.1.over_target_upper = s.over_target_upper
    ∧ s.check_liquid_change_reminder.1.below_target_lower = s.below_target_lower
    ∧ s.check_liquid_change_reminder.1.TARGET = s.TARGET
    ∧ s.check_liquid_change_reminder.1.LOWER_LIMIT = s.LOWER_LIMIT
    ∧ s.check_liquid_change_reminder.1.UPPER_LIMIT = s.UPPER_LIMIT := by
  unfold ProcessData.check_liquid_change_reminder
  repeat' split
  all_goals exact ⟨rfl, rfl, rfl, rfl, rfl, rfl, rfl⟩

theorem statusConsistent_step {s t : ProcessData}
    (hs : StatusConsistent s) (hst : Step s t) : StatusConsistent t := by
  cases hst with
  | add i v => exact statusConsistent_check_target_limits _
  | reset =>
    unfold ProcessData.reset_total
    split
    · exact hs
    · exact statusConsistent_check_target_limits _
  | setT v => exact statusConsistent_check_target_limits _
  | setL v => exact statusConsistent_check_target_limits _
  | setU v => exact statusConsistent_check_target_limits _
  | undo =>
    unfold ProcessData.undo_last_action
    split
    · exact hs
    · split
      · exact statusConsistent_check_target_limits _
      · exact statusConsistent_of_fields rfl rfl rfl rfl rfl rfl
          (statusConsistent_check_target_limits _)
      · exact statusConsistent_check_target_limits _
      · exact statusConsistent_check_target_limits _
      · exact statusConsistent_check_target_limits _
  | remind =>
    obtain ⟨hb, _, ho, hbl, hT, hL, hU⟩ := reminder_fst_fields s
    exact statusConsistent_of_fields hb ho hbl hT hL hU hs

theorem statusConsistent_reachable {s : ProcessData} (h : Reachable s) :
    StatusConsistent s := by
  induction h with
  | init mode d => exact statusConsistent_check_target_limits _
  | step _ hst ih => exact statusConsistent_step ih hst

/-- Well-formedness of the operation stack relative to the ledger: for
every add record from the top downward the ledger (as it will be when
that record is undone) is non-empty, and reset records restart the
correspondence at their snapshot. -/
def StackOK : List OpRecord → List Batch → Prop
  | [], _ => True
  | OpRecord.add_batch _ _ :: rest, bs => bs ≠ [] ∧ StackOK rest bs.dropLast
  | OpRecord.reset prev :: rest, _ => StackOK rest prev
  | OpRecord.set_target _ _ :: rest, bs => StackOK rest bs
  | OpRecord.set_lower_limit _ _ :: rest, bs => StackOK rest bs
  | OpRecord.set_upper_limit _ _ :: rest, bs => StackOK rest bs

theorem stackOK_step {s t : ProcessData}
    (h : StackOK s.operation_stack s.batches) (hst : Step s t) :
    StackOK t.operation_stack t.batches := by
  cases hst with
  | add i v =>
    rw [add_batch_stack, add_batch_batches]
    exact ⟨by simp, by rw [List.dropLast_concat]; exact h⟩
  | reset =>
    unfold ProcessData.reset_total
    split
    · exact h
    · exact h
  | setT v => exact h
  | setL v => exact h
  | setU v => exact h
  | undo =>
    rcases hstack : s.operation_stack with _ | ⟨op, rest⟩
    · rw [undo_on_nil s hstack]
      exact h
    · rw [hstack] at h
      cases op with
      | add_batch b pt =>
        rw [undo_on_add s b pt rest hstack]
        exact h.2
      | reset prev =>
        rw [undo_on_reset s prev rest hstack]
        exact h
      | set_target p v =>
        rw [undo_on_set_target s p v rest hstack]
        exact h
      | set_lower_limit p v =>
        rw [undo_on_set_lower s p v rest hstack]
        exact h
      | set_upper_limit p v =>
        rw [undo_on_set_upper s p v rest hstack]
        exact h
  | remind =>
    obtain ⟨hb, hst', _⟩ := reminder_fst_fields s
    rw [hb, hst']
    exact h

theorem stackOK_reachable {s : ProcessData} (h : Reachable s) :
    StackOK s.operation_stack s.batches := by
  induction h with
  | init mode d =>
    rw [initEngine_stack]
    simp [StackOK]
  | step _ hst ih => exact stackOK_step ih hst

/-! ### Concrete states used by the witnesses -/

/-- A freshly constructed engine with no persisted file. -/
def engine0 : ProcessData := initEngine "integer" none

/-- A consistent state sitting in the reminder band:
total 150 with thresholds lower 100, target 200, upper 300. -/
def sBand : ProcessData :=
  { batches := [⟨"A", 150⟩], operation_stack := [],
    over_target_upper := false, below_target_lower := true,
    TARGET := 200, LOWER_LIMIT := 100, UPPER_LIMIT := 300,
    has_decimal := false, liquid_change_reminded := false,
    input_mode := "integer" }

theorem engine0_total : engine0.total = 0 := rfl

theorem engine0_stack : engine0.operation_stack = [] := rfl

theorem sBand_total : sBand.total = 150 := by
  simp [sBand, ProcessData.total]

theorem sBand_consistent : StatusConsistent sBand := by
  constructor
  · show false = decide (sBand.total > sBand.UPPER_LIMIT)
    rw [sBand_total]
    norm_num [sBand]
  · show true = decide (sBand.LOWER_LIMIT ≤ sBand.total ∧ sBand.total < sBand.TARGET)
    rw [sBand_total]
    norm_num [sBand]

/-! ### The claims -/

/-- C4: the two no-op conditions are signaled by sentinel returns and
never mutate state: `reset_total` with total zero returns the falsy
sentinel, changes nothing and pushes no undo record (`can_undo`
unchanged); `undo_last_action` with an empty history returns none and
performs no mutation. -/
theorem noop_sentinels (s : ProcessData) :
    (s.total = 0 →
        s.reset_total = (s, none) ∧ s.reset_total.1.can_undo = s.can_undo)
    ∧ (s.operation_stack = [] → s.undo_last_action = (s, none)) := by
  constructor
  · intro h
    have hr : s.reset_total = (s, none) := by
      unfold ProcessData.reset_total
      rw [if_pos h]
    exact ⟨hr, by rw [hr]⟩
  · intro h
    exact undo_on_nil s h

/-- Witness for C4 on the fresh engine, whose total is 0 and whose
history is empty. -/
theorem noop_sentinels_witness :
    engine0.reset_total = (engine0, none)
    ∧ engine0.undo_last_action = (engine0, none) :=
  ⟨((noop_sentinels engine0).1 engine0_total).1,
   (noop_sentinels engine0).2 engine0_stack⟩

/-- C5: when total is nonzero, `reset_total` captures a full copy of the
ledger into a reset undo record, empties the ledger, clears the reminder
flag, leaves thresholds alone, recomputes derived status, and returns
the total that existed before clearing. -/
theorem reset_nonzero_spec (s : ProcessData) (h : s.total ≠ 0) :
    s.reset_total.2 = some s.total
    ∧ s.reset_total.1.operation_stack = OpRecord.reset s.batches :: s.operation_stack
    ∧ s.reset_total.1.batches = []
    ∧ s.reset_total.1.liquid_change_reminded = false
    ∧ s.reset_total.1.TARGET = s.TARGET
    ∧ s.reset_total.1.LOWER_LIMIT = s.LOWER_LIMIT
    ∧ s.reset_total.1.UPPER_LIMIT = s.UPPER_LIMIT
    ∧ StatusConsistent s.reset_total.1 := by
  unfold ProcessData.reset_total
  rw [if_neg h]
  exact ⟨rfl, rfl, rfl, rfl, rfl, rfl, rfl, statusConsistent_check_target_limits _⟩

/-- Witness for C5 after one addition of value 5. -/
theorem reset_nonzero_spec_witness :
    (engine0.add_batch "A" 5).1.total ≠ 0
    ∧ ((engine0.add_batch "A" 5).1.reset_total.2
        = some (engine0.add_batch "A" 5).1.total
      ∧ (engine0.add_batch "A" 5).1.reset_total.1.operation_stack
          = OpRecord.reset (engine0.add_batch "A" 5).1.batches
              :: (engine0.add_batch "A" 5).1.operation_stack
      ∧ (engine0.add_batch "A" 5).1.reset_total.1.batches = []
      ∧ (engine0.add_batch "A" 5).1.reset_total.1.liquid_change_reminded = false
      ∧ (engine0.add_batch "A" 5).1.reset_total.1.TARGET
          = (engine0.add_batch "A" 5).1.TARGET
      ∧ (engine0.add_batch "A" 5).1.reset_total.1.LOWER_LIMIT
          = (engine0.add_batch "A" 5).1.LOWER_LIMIT
      ∧ (engine0.add_batch "A" 5).1.reset_total.1.UPPER_LIMIT
          = (engine0.add_batch "A" 5).1.UPPER_LIMIT
      ∧ StatusConsistent (engine0.add_batch "A" 5).1.reset_total.1) := by
  have h5 : (engine0.add_batch "A" 5).1.total ≠ 0 := by
    rw [add_batch_total, engine0_total]
    norm_num
  exact ⟨h5, reset_nonzero_spec (engine0.add_batch "A" 5).1 h5⟩

/-- C10: the no-op test of `reset_total` is on the total, not on ledger
emptiness: a non-empty ledger whose values sum to zero is left exactly
as it is, with the sentinel returned and history and reminder flag
untouched. -/
theorem reset_tests_total_not_ledger (s : ProcessData)
    (hne : s.batches ≠ []) (h0 : s.total = 0) :
    s.reset_total = (s, none)
    ∧ s.reset_total.1.batches ≠ []
    ∧ s.reset_total.1.operation_stack = s.operation_stack
    ∧ s.reset_total.1.liquid_change_reminded = s.liquid_change_reminded := by
  have hr : s.reset_total = (s, none) := by
    unfold ProcessData.reset_total
    rw [if_pos h0]
  rw [hr]
  exact ⟨rfl, hne, rfl, rfl⟩

/-- Witness for C10: two contributions 5 and -5 leave a non-empty ledger
with total 0, and reset refuses to act. -/
theorem reset_tests_total_not_ledger_witness :
    ((engine0.add_batch "A" 5).1.add_batch "B" (-5)).1.batches ≠ []
    ∧ ((engine0.add_batch "A" 5).1.add_batch "B" (-5)).1.total = 0
    ∧ (((engine0.add_batch "A" 5).1.add_batch "B" (-5)).1.reset_total
        = (((engine0.add_batch "A" 5).1.add_batch "B" (-5)).1, none)
      ∧ ((engine0.add_batch "A" 5).1.add_batch "B" (-5)).1.reset_total.1.batches ≠ []
      ∧ ((engine0.add_batch "A" 5).1.add_batch "B" (-5)).1.reset_total.1.operation_stack
          = ((engine0.add_batch "A" 5).1.add_batch "B" (-5)).1.operation_stack
      ∧ ((engine0.add_batch "A" 5).1.add_batch
          "B" (-5)).1.reset_total.1.liquid_change_reminded
          = ((engine0.add_batch "A" 5).1.add_batch "B" (-5)).1.liquid_change_reminded) := by
  have hne : ((engine0.add_batch "A" 5).1.add_batch "B" (-5)).1.batches ≠ [] := by
    rw [add_batch_batches]
    simp
  have h0 : ((engine0.add_batch "A" 5).1.add_batch "B" (-5)).1.total = 0 := by
    rw [add_batch_total, add_batch_total, engine0_total]
    norm_num
  exact ⟨hne, h0, reset_tests_total_not_ledger _ hne h0⟩

/-- C7: in every reachable state the stored derived-status booleans
satisfy their definitions: over_target_upper is total > UPPER_LIMIT and
below_target_lower is LOWER_LIMIT <= total < TARGET. -/
theorem derived_status_invariant (s : ProcessData) (h : Reachable s) :
    s.over_target_upper = decide (s.total > s.UPPER_LIMIT)
    ∧ s.below_target_lower = decide (s.LOWER_LIMIT ≤ s.total ∧ s.total < s.TARGET) :=
  statusConsistent_reachable h

/-- Witness for C7 in the reachable state reached by one addition. -/
theorem derived_status_invariant_witness :
    (engine0.add_batch "A" 42).1.over_target_upper
        = decide ((engine0.add_batch "A" 42).1.total
            > (engine0.add_batch "A" 42).1.UPPER_LIMIT)
    ∧ (engine0.add_batch "A" 42).1.below_target_lower
        = decide ((engine0.add_batch "A" 42).1.LOWER_LIMIT
              ≤ (engine0.add_batch "A" 42).1.total
            ∧ (engine0.add_batch "A" 42).1.total
              < (engine0.add_batch "A" 42).1.TARGET) :=
  derived_status_invariant _
    (Reachable.step (Reachable.init "integer" none) (Step.add engine0 "A" 42))

/-- C9: in every reachable state, an add record on top of the undo stack
guarantees a non-empty ledger, so the unguarded pop in undo's add branch
always removes a batch and always produces a value. -/
theorem undo_add_never_fails (s : ProcessData) (h : Reachable s) (b : Batch)
    (pt : ℚ) (rest : List OpRecord)
    (htop : s.operation_stack = OpRecord.add_batch b pt :: rest) :
    s.batches ≠ [] ∧ s.undo_last_action.2.isSome = true := by
  have hok := stackOK_reachable h
  rw [htop] at hok
  refine ⟨hok.1, ?_⟩
  rw [undo_on_add s b pt rest htop]
  have hsome : s.batches.getLast?.isSome = true := List.getLast?_isSome.mpr hok.1
  obtain ⟨a, ha⟩ := Option.isSome_iff_exists.mp hsome
  rw [ha]
  rfl

/-- Witness for C9 after a single addition. -/
theorem undo_add_never_fails_witness :
    (engine0.add_batch "A" 1).1.batches ≠ []
    ∧ (engine0.add_batch "A" 1).1.undo_last_action.2.isSome = true :=
  undo_add_never_fails _
    (Reachable.step (Reachable.init "integer" none) (Step.add engine0 "A" 1))
    ⟨"A", 1⟩ engine0.total [] rfl

/-- C8: a legacy persisted record with no batches key loads as an empty
ledger with total 0; whatever aggregate total the old record carried is
discarded, never turned into a synthetic contribution. -/
theorem legacy_record_loads_empty (mode : String) (d : SavedData)
    (hleg : d.saved_batches = none) :
    (initEngine mode (some d)).batches = []
    ∧ (initEngine mode (some d)).total = 0 := by
  have hb : (initEngine mode (some d)).batches = [] := by
    show d.saved_batches.getD [] = []
    rw [hleg]
    rfl
  refine ⟨hb, ?_⟩
  unfold ProcessData.total
  rw [hb]
  rfl

/-- Witness for C8: a legacy record carrying only an old aggregate total
of 999 loads as the empty ledger. -/
theorem legacy_record_loads_empty_witness :
    (initEngine "integer" (some
      { saved_batches := none, legacy_total := some 999, target := some 400,
        lower_limit := some 100, upper_limit := some 500,
        saved_input_mode := some "integer", saved_reminded := some true })).batches = []
    ∧ (initEngine "integer" (some
      { saved_batches := none, legacy_total := some 999, target := some 400,
        lower_limit := some 100, upper_limit := some 500,
        saved_input_mode := some "integer", saved_reminded := some true })).total = 0 :=
  legacy_record_loads_empty "integer" _ rfl

/-- C3: the reminder check is a one-shot latch with a forced override.
With a status-consistent over-upper flag: total above the upper limit
always yields the forced tuple with no state change; otherwise in the
band lower <= total < target, an idle flag yields the reached notice and
latches the flag, a latched flag yields the pending notice unchanged;
otherwise total below the lower limit silently clears the flag (re-arming
the one-shot) and yields (None, None); in all remaining states the state
is unchanged and the result is (None, None). -/
theorem reminder_one_shot (s : ProcessData)
    (hov : s.over_target_upper = decide (s.total > s.UPPER_LIMIT)) :
    (s.total > s.UPPER_LIMIT →
        s.check_liquid_change_reminder = (s, some ReminderResult.forced))
    ∧ (¬ s.total > s.UPPER_LIMIT → s.LOWER_LIMIT ≤ s.total → s.total < s.TARGET →
        (s.liquid_change_reminded = false →
            s.check_liquid_change_reminder =
              ({ s with liquid_change_reminded := true },
               some (ReminderResult.reached s.total s.TARGET)))
        ∧ (s.liquid_change_reminded = true →
            s.check_liquid_change_reminder =
              (s, some (ReminderResult.pending s.total s.TARGET))))
    ∧ (¬ s.total > s.UPPER_LIMIT → s.total < s.LOWER_LIMIT →
        s.check_liquid_change_reminder =
          ({ s with liquid_change_reminded := false }, none))
    ∧ (¬ s.total > s.UPPER_LIMIT →
        ¬ (s.LOWER_LIMIT ≤ s.total ∧ s.total < s.TARGET) →
        ¬ s.total < s.LOWER_LIMIT →
        s.check_liquid_change_reminder = (s, none)) := by
  refine ⟨?_, ?_, ?_, ?_⟩
  · intro h
    unfold ProcessData.check_liquid_change_reminder
    rw [hov]
    simp [h]
  · intro h hlo hhi
    constructor
    · intro hrem
      unfold ProcessData.check_liquid_change_reminder
      rw [hov]
      simp [h, hlo, hhi, hrem]
    · intro hrem
      unfold ProcessData.check_liquid_change_reminder
      rw [hov]
      simp [h, hlo, hhi, hrem]
  · intro h hlow
    have hnotband : ¬ (s.LOWER_LIMIT ≤ s.total ∧ s.total < s.TARGET) := by
      intro hcon
      exact absurd hlow (not_lt.mpr hcon.1)
    unfold ProcessData.check_liquid_change_reminder
    rw [hov]
    simp [h, hnotband, hlow]
  · intro h hnotband hnotlow
    unfold ProcessData.check_liquid_change_reminder
    rw [hov]
    simp [h, hnotband, hnotlow]

/-- Witness for C3: in the band state with total 150 and idle flag, the
check returns the reached notice and latches the flag. -/
theorem reminder_one_shot_witness :
    ¬ sBand.total > sBand.UPPER_LIMIT
    ∧ sBand.LOWER_LIMIT ≤ sBand.total
    ∧ sBand.total < sBand.TARGET
    ∧ sBand.check_liquid_change_reminder =
        ({ sBand with liquid_change_reminded := true },
         some (ReminderResult.reached sBand.total sBand.TARGET)) := by
  have h1 : ¬ sBand.total > sBand.UPPER_LIMIT := by
    rw [sBand_total]; norm_num [sBand]
  have h2 : sBand.LOWER_LIMIT ≤ sBand.total := by
    rw [sBand_total]; norm_num [sBand]
  have h3 : sBand.total < sBand.TARGET := by
    rw [sBand_total]; norm_num [sBand]
  exact ⟨h1, h2, h3,
    ((reminder_one_shot sBand sBand_consistent.1).2.1 h1 h2 h3).1 rfl⟩

theorem set_target_undo_state (s : ProcessData) (hs : StatusConsistent s) (v : ℚ) :
    (s.set_target v).1.undo_last_action = (s, some v) := by
  rw [undo_on_set_target (s.set_target v).1 s.TARGET v s.operation_stack rfl]
  obtain ⟨h1, h2⟩ := hs
  cases s
  simp_all [ProcessData.set_target, ProcessData.check_target_limits,
    ProcessData.total, ProcessData.mk.injEq]

theorem set_lower_undo_state (s : ProcessData) (hs : StatusConsistent s) (v : ℚ) :
    (s.set_lower_limit v).1.undo_last_action = (s, some v) := by
  rw [undo_on_set_lower (s.set_lower_limit v).1 s.LOWER_LIMIT v s.operation_stack rfl]
  obtain ⟨h1, h2⟩ := hs
  cases s
  simp_all [ProcessData.set_lower_limit, ProcessData.check_target_limits,
    ProcessData.total, ProcessData.mk.injEq]

theorem set_upper_undo_state (s : ProcessData) (hs : StatusConsistent s) (v : ℚ) :
    (s.set_upper_limit v).1.undo_last_action = (s, some v) := by
  rw [undo_on_set_upper (s.set_upper_limit v).1 s.UPPER_LIMIT v s.operation_stack rfl]
  obtain ⟨h1, h2⟩ := hs
  cases s
  simp_all [ProcessData.set_upper_limit, ProcessData.check_target_limits,
    ProcessData.total, ProcessData.mk.injEq]

/-- C6: threshold changes round-trip through undo: each setter returns
the prior value, the following undo returns the value undone away from
and restores the exact prior state, after which the reminder check
behaves according to the thresholds as they stood before the setter
call; this holds for target, lower limit and upper limit alike. -/
theorem threshold_roundtrip (s : ProcessData) (hs : StatusConsistent s) (v : ℚ) :
    ((s.set_target v).2 = s.TARGET
      ∧ (s.set_target v).1.undo_last_action = (s, some v)
      ∧ (s.set_target v).1.undo_last_action.1.check_liquid_change_reminder
          = s.check_liquid_change_reminder)
    ∧ ((s.set_lower_limit v).2 = s.LOWER_LIMIT
      ∧ (s.set_lower_limit v).1.undo_last_action = (s, some v)
      ∧ (s.set_lower_limit v).1.undo_last_action.1.check_liquid_change_reminder
          = s.check_liquid_change_reminder)
    ∧ ((s.set_upper_limit v).2 = s.UPPER_LIMIT
      ∧ (s.set_upper_limit v).1.undo_last_action = (s, some v)
      ∧ (s.set_upper_limit v).1.undo_last_action.1.check_liquid_change_reminder
          = s.check_liquid_change_reminder) := by
  have ht := set_target_undo_state s hs v
  have hl := set_lower_undo_state s hs v
  have hu := set_upper_undo_state s hs v
  exact ⟨⟨rfl, ht, by rw [ht]⟩, ⟨rfl, hl, by rw [hl]⟩, ⟨rfl, hu, by rw [hu]⟩⟩

/-- Witness for C6: setting target 500 on the band state and undoing. -/
theorem threshold_roundtrip_witness :
    ((sBand.set_target 500).2 = sBand.TARGET
      ∧ (sBand.set_target 500).1.undo_last_action = (sBand, some 500)
      ∧ (sBand.set_target 500).1.undo_last_action.1.check_liquid_change_reminder
          = sBand.check_liquid_change_reminder)
    ∧ ((sBand.set_lower_limit 500).2 = sBand.LOWER_LIMIT
      ∧ (sBand.set_lower_limit 500).1.undo_last_action = (sBand, some 500)
      ∧ (sBand.set_lower_limit 500).1.undo_last_action.1.check_liquid_change_reminder
          = sBand.check_liquid_change_reminder)
    ∧ ((sBand.set_upper_limit 500).2 = sBand.UPPER_LIMIT
      ∧ (sBand.set_upper_limit 500).1.undo_last_action = (sBand, some 500)
      ∧ (sBand.set_upper_limit 500).1.undo_last_action.1.check_liquid_change_reminder
          = sBand.check_liquid_change_reminder) :=
  threshold_roundtrip sBand sBand_consistent 500

theorem sum_append_mkBatch (B : List Batch) (ws : List (String × ℚ)) :
    ((B ++ ws.map mkBatch).map Batch.value).sum
      = (B.map Batch.value).sum + (ws.map Prod.snd).sum := by
  rw [List.map_append, List.sum_append, List.map_map]
  rfl

/-- C1: for any sequence of additions with values v1..vn the total
equals the running sum at every intermediate point, after undoing the
last k additions it equals the sum of the first n-k values, and the
total is a function of the contribution sequence alone (no separate
accumulator: two states with the same ledger have the same total). -/
theorem total_is_sum_of_contributions (s : ProcessData)
    (vs : List (String × ℚ)) (k : Nat) (hk : k ≤ vs.length) :
    (∀ i : Nat, (addAll s (vs.take i)).total
        = s.total + ((vs.take i).map Prod.snd).sum)
    ∧ (undoN k (addAll s vs)).total
        = s.total + ((vs.take (vs.length - k)).map Prod.snd).sum
    ∧ ∀ t : ProcessData, t.batches = s.batches → t.total = s.total := by
  refine ⟨?_, ?_, ?_⟩
  · intro i
    unfold ProcessData.total
    rw [addAll_batches]
    exact sum_append_mkBatch _ _
  · obtain ⟨hb, _⟩ := undoN_addAll_spec s vs k hk
    unfold ProcessData.total
    rw [hb]
    exact sum_append_mkBatch _ _
  · intro t ht
    unfold ProcessData.total
    rw [ht]

/-- Witness for C1 with values 3 and 4 and one undo. -/
theorem total_is_sum_of_contributions_witness :
    1 ≤ ([("A", (3 : ℚ)), ("B", 4)] : List (String × ℚ)).length
    ∧ ((∀ i : Nat, (addAll engine0 (([("A", (3 : ℚ)), ("B", 4)]).take i)).total
          = engine0.total + ((([("A", (3 : ℚ)), ("B", 4)]).take i).map Prod.snd).sum)
      ∧ (undoN 1 (addAll engine0 [("A", (3 : ℚ)), ("B", 4)])).total
          = engine0.total
            + ((([("A", (3 : ℚ)), ("B", 4)]).take
                (([("A", (3 : ℚ)), ("B", 4)] : List (String × ℚ)).length - 1)).map
                Prod.snd).sum
      ∧ ∀ t : ProcessData, t.batches = engine0.batches → t.total = engine0.total) :=
  ⟨by decide,
   total_is_sum_of_contributions engine0 [("A", 3), ("B", 4)] 1 (by decide)⟩


theorem undoN_addAll_restores (t : ProcessData) (vs : List (String × ℚ))
    (ht : StatusConsistent t) :
    (undoN vs.length (addAll t vs)).batches = t.batches
    ∧ (undoN vs.length (addAll t vs)).total = t.total
    ∧ (undoN vs.length (addAll t vs)).operation_stack = t.operation_stack
    ∧ (undoN vs.length (addAll t vs)).over_target_upper = t.over_target_upper
    ∧ (undoN vs.length (addAll t vs)).below_target_lower = t.below_target_lower
    ∧ (undoN vs.length (addAll t vs)).TARGET = t.TARGET
    ∧ (undoN vs.length (addAll t vs)).LOWER_LIMIT = t.LOWER_LIMIT
    ∧ (undoN vs.length (addAll t vs)).UPPER_LIMIT = t.UPPER_LIMIT := by
  obtain ⟨hb, hT, hL, hU, hR, l, hl, hlen, hadd⟩ :=
    undoN_addAll_spec t vs vs.length le_rfl
  rw [Nat.sub_self] at hb hlen
  have hbat : (undoN vs.length (addAll t vs)).batches = t.batches := by
    rw [hb]; simp
  have hlnil : l = [] := List.length_eq_zero.mp hlen
  subst hlnil
  rw [List.nil_append] at hl
  have htot : (undoN vs.length (addAll t vs)).total = t.total := by
    unfold ProcessData.total
    rw [hbat]
  have hflags : StatusConsistent (undoN vs.length (addAll t vs)) ∨ vs = [] := by
    cases vs with
    | nil => exact Or.inr rfl
    | cons p rest =>
      left
      obtain ⟨_, _, _, _, _, l2, hl2, hlen2, hadd2⟩ :=
        undoN_addAll_spec t (p :: rest) rest.length (by simp)
      have h1 : l2.length = 1 := by rw [hlen2]; simp
      obtain ⟨r, l3, rfl⟩ : ∃ r l3, l2 = r :: l3 := by
        cases l2 with
        | nil => simp at h1
        | cons r l3 => exact ⟨r, l3, rfl⟩
      have hl3 : l3 = [] := by
        simp only [List.length_cons, Nat.add_left_eq_self] at h1
        exact List.length_eq_zero.mp h1
      subst hl3
      have hr : r.isAdd = true := hadd2 r (by simp)
      obtain ⟨b, pt, rfl⟩ : ∃ b pt, r = OpRecord.add_batch b pt := by
        cases r with
        | add_batch b pt => exact ⟨b, pt, rfl⟩
        | reset q => simp [OpRecord.isAdd] at hr
        | set_target q w => simp [OpRecord.isAdd] at hr
        | set_lower_limit q w => simp [OpRecord.isAdd] at hr
        | set_upper_limit q w => simp [OpRecord.isAdd] at hr
      rw [List.singleton_append] at hl2
      have hstep : undoN (p :: rest).length (addAll t (p :: rest))
          = undoStep (undoN rest.length (addAll t (p :: rest))) := by
        show undoStep^[rest.length + 1] (addAll t (p :: rest)) = _
        exact Function.iterate_succ_apply' _ _ _
      obtain ⟨_, _, _, _, _, _, hcons⟩ :=
        undoStep_on_add (undoN rest.length (addAll t (p :: rest))) b pt
          t.operation_stack hl2
      rw [hstep]
      exact hcons
  rcases hflags with hcons | hnil
  · refine ⟨hbat, htot, hl, ?_, ?_, hT, hL, hU⟩
    · rw [hcons.1, htot, hU]
      exact ht.1.symm
    · rw [hcons.2, htot, hL, hT]
      exact ht.2.symm
  · subst hnil
    exact ⟨rfl, rfl, rfl, rfl, rfl, rfl, rfl, rfl⟩

/-- C2: undo inverts additions in strict LIFO order: after add(A),
add(B) the two undos return B.value then A.value and leave the ledger
empty; and in general n additions followed by n undos restore the
ledger, the total, the undo stack, the derived status and the thresholds
of any status-consistent pre-addition state (the reminder flag is
excluded from the guarantee). -/
theorem undo_stack_discipline (A B : Batch) (s : ProcessData) (hb : s.batches = []) :
    ((s.add_batch A.batch_id A.value).1.add_batch B.batch_id
        B.value).1.undo_last_action.2 = some B.value
    ∧ ((s.add_batch A.batch_id A.value).1.add_batch B.batch_id
        B.value).1.undo_last_action.1.undo_last_action.2 = some A.value
    ∧ ((s.add_batch A.batch_id A.value).1.add_batch B.batch_id
        B.value).1.undo_last_action.1.undo_last_action.1.batches = []
    ∧ ∀ (t : ProcessData) (vs : List (String × ℚ)), StatusConsistent t →
        (undoN vs.length (addAll t vs)).batches = t.batches
        ∧ (undoN vs.length (addAll t vs)).total = t.total
        ∧ (undoN vs.length (addAll t vs)).operation_stack = t.operation_stack
        ∧ (undoN vs.length (addAll t vs)).over_target_upper = t.over_target_upper
        ∧ (undoN vs.length (addAll t vs)).below_target_lower = t.below_target_lower
        ∧ (undoN vs.length (addAll t vs)).TARGET = t.TARGET
        ∧ (undoN vs.length (addAll t vs)).LOWER_LIMIT = t.LOWER_LIMIT
        ∧ (undoN vs.length (addAll t vs)).UPPER_LIMIT = t.UPPER_LIMIT := by
  set s1 : ProcessData := (s.add_batch A.batch_id A.value).1 with hs1
  set s2 : ProcessData := (s1.add_batch B.batch_id B.value).1 with hs2
  have hstk2 : s2.operation_stack
      = OpRecord.add_batch ⟨B.batch_id, B.value⟩ s1.total
          :: (OpRecord.add_batch ⟨A.batch_id, A.value⟩ s.total
            :: s.operation_stack) := rfl
  have hbat2 : s2.batches = [⟨A.batch_id, A.value⟩, ⟨B.batch_id, B.value⟩] := by
    rw [hs2, add_batch_batches, hs1, add_batch_batches, hb]
    rfl
  have hu1 := undo_on_add s2 ⟨B.batch_id, B.value⟩ s1.total
    (OpRecord.add_batch ⟨A.batch_id, A.value⟩ s.total :: s.operation_stack) hstk2
  have hu1st : s2.undo_last_action.1.operation_stack
      = OpRecord.add_batch ⟨A.batch_id, A.value⟩ s.total :: s.operation_stack := by
    rw [hu1]
    rfl
  have hu1bat : s2.undo_last_action.1.batches = [⟨A.batch_id, A.value⟩] := by
    rw [hu1]
    show s2.batches.dropLast = _
    rw [hbat2]
    rfl
  have hu2 := undo_on_add s2.undo_last_action.1 ⟨A.batch_id, A.value⟩ s.total
    s.operation_stack hu1st
  refine ⟨?_, ?_, ?_, ?_⟩
  · rw [hu1]
    show s2.batches.getLast?.map Batch.value = some B.value
    rw [hbat2]
    rfl
  · rw [hu2]
    show s2.undo_last_action.1.batches.getLast?.map Batch.value = some A.value
    rw [hu1bat]
    rfl
  · rw [hu2]
    show s2.undo_last_action.1.batches.dropLast = []
    rw [hu1bat]
    rfl
  · intro t vs ht
    exact undoN_addAll_restores t vs ht

/-- Witness for C2: add 3 then 4 on the fresh engine, undo twice; and
one addition undone on the band state. -/
theorem undo_stack_discipline_witness :
    engine0.batches = []
    ∧ ((engine0.add_batch "A" 3).1.add_batch "B" 4).1.undo_last_action.2 = some 4
    ∧ ((engine0.add_batch "A" 3).1.add_batch
        "B" 4).1.undo_last_action.1.undo_last_action.2 = some 3
    ∧ ((engine0.add_batch "A" 3).1.add_batch
        "B" 4).1.undo_last_action.1.undo_last_action.1.batches = []
    ∧ (undoN ([("C", (7 : ℚ))] : List (String × ℚ)).length
          (addAll sBand [("C", (7 : ℚ))])).batches = sBand.batches
    ∧ (undoN ([("C", (7 : ℚ))] : List (String × ℚ)).length
          (addAll sBand [("C", (7 : ℚ))])).total = sBand.total := by
  have h := undo_stack_discipline ⟨"A", 3⟩ ⟨"B", 4⟩ engine0 rfl
  obtain ⟨h1, h2, h3, h4⟩ := h
  obtain ⟨hr1, hr2, _⟩ := h4 sBand [("C", (7 : ℚ))] sBand_consistent
  exact ⟨rfl, h1, h2, h3, hr1, hr2⟩
